import Mathlib

/-!
Shallow embedding of `src/anima_engine.py` (a PyQt desktop-pet overlay) and
proofs of the spec's claims about it.  Python lists become `List`, the JSON
config dict becomes an association list, Qt mouse events become a small event
type, the single-shot idle `QTimer` becomes an explicit `Option Nat` of
remaining milliseconds with an `elapse` step, and Python floats become `ℚ`.
Filesystem interaction (existence checks, reads that may raise) is passed in
as explicit parameters so that the `try/except` structure of the source is
captured by totality plus `Option`.
-/

namespace AnimaEngine

/-! ### Module-level constants (`=== CONFIG ===` block of the source) -/

def DEFAULT_GIF : String := "anime_character5.gif"

def IDLE_GIF : String := "idle.gif"

def IDLE_TIMEOUT_MS : Nat := 15000

def PET_SIZE : Int := 250

/-! ### Config dictionary

The persisted config is a JSON object; the program only ever reads and writes
flat keys, so we model it as an association list of string keys.  Values that
the claims inspect (`last_gif`) are strings; we store every value as its
string form, which is enough for every claim below. -/

abbrev Config := List (String × String)

/-- `cfg.get(key)`: first binding for the key, if any. -/
def config_get (cfg : Config) (key : String) : Option String :=
  (cfg.find? (fun kv => kv.1 == key)).map (fun kv => kv.2)

/-- `cfg[key] = val`: replace an existing binding or append a new one. -/
def config_set (cfg : Config) (key val : String) : Config :=
  if cfg.any (fun kv => kv.1 == key) then
    cfg.map (fun kv => if kv.1 == key then (key, val) else kv)
  else
    cfg ++ [(key, val)]

/-! ### `load_config` / `save_config`

`load_config` first tests `os.path.exists(CONFIG_PATH)` and returns `{}` when
the file is missing; otherwise it opens, reads and `json.load`s inside a
`try`, returning `{}` on any exception.  We model the filesystem state as an
optional file content plus a flag for an I/O error during open/read, and the
JSON parser as a partial function `String → Option Config` (a `none` result
is a `json.load` exception). -/

structure FileSystem where
  configFile : Option String
  readFails : Bool

def load_config (fs : FileSystem) (parse : String → Option Config) : Config :=
  match fs.configFile with
  | none => []
  | some s =>
    if fs.readFails then []
    else
      match parse s with
      | some c => c
      | none => []

/-- The body of `save_config`'s `try` block: opening and `json.dump`ing can
raise (`ok = false`), modelled as an `Except`. -/
def save_config_attempt (ok : Bool) : Except Unit Unit :=
  if ok then Except.ok () else Except.error ()

/-- `save_config(cfg)`: any exception from the write is caught by
`except Exception: pass`; the in-memory `cfg` is returned unchanged to make
explicit that the function never mutates it. -/
def save_config (cfg : Config) (ok : Bool) : Except Unit Unit × Config :=
  match save_config_attempt ok with
  | Except.ok u => (Except.ok u, cfg)
  | Except.error _ => (Except.ok (), cfg)

/-! ### Multi-pet helpers (`add_pet` / `remove_pet`)

For the pet-count claim only the identity of each pet matters, so a pet is a
bare identifier.  `add_pet` refuses when three pets exist and otherwise
appends the newly constructed pet; `remove_pet` refuses when the pet is not
in the list or the list would drop below one, and otherwise removes that pet
(`PETS.remove` deletes the first matching element). -/

abbrev Pet := Nat

def add_pet (pets : List Pet) (newPet : Pet) : List Pet :=
  if 3 ≤ pets.length then pets
  else pets ++ [newPet]

def remove_pet (pets : List Pet) (pet : Pet) : List Pet :=
  if pet ∉ pets then pets
  else if pets.length ≤ 1 then pets
  else pets.erase pet

/-- One user action on the global `PETS` list. -/
inductive PetOp where
  | add (newPet : Pet)
  | remove (pet : Pet)

def run_op (pets : List Pet) : PetOp → List Pet
  | PetOp.add q => add_pet pets q
  | PetOp.remove q => remove_pet pets q

/-- A whole sequence of add/remove actions, starting from `pets`. -/
def run_ops (pets : List Pet) (ops : List PetOp) : List Pet :=
  ops.foldl run_op pets

/-! ### The pet window (`DraggableLabel`)

State of one pet window.  `idle_timer` is the single-shot `QTimer`: `some r`
means the timer is running with `r` milliseconds remaining, `none` means it
is stopped.  `setWindowOpacity` / `move` become field updates; Python floats
are `ℚ`.  `config` is the shared config dict the pet writes `last_gif`
into. -/

structure PetState where
  drag_active : Bool
  drag_offset : Int × Int
  locked : Bool
  save_position : Bool
  config : Config
  active_gif : String
  current_gif : String
  idle_gif : Option String
  is_idle : Bool
  idle_timer : Option Nat
  pos : Int × Int
  opacity : ℚ
  deriving DecidableEq

/-- `__init__`'s idle support:
`idle_gif_path if (idle_gif_path and os.path.exists(idle_gif_path)) else None`
(`ex` is `os.path.exists`; an absent or empty — falsy — path gives `None`). -/
def init_idle_gif (idle_gif_path : Option String) (ex : String → Bool) : Option String :=
  match idle_gif_path with
  | none => none
  | some s => if s ≠ "" ∧ ex s = true then some s else none

/-- `reset_idle_timer`: restart the countdown if an idle gif is configured
(Python truthiness: a non-empty string), else stop the timer. -/
def reset_idle_timer (p : PetState) : PetState :=
  match p.idle_gif with
  | some g =>
    if g ≠ "" then { p with idle_timer := some IDLE_TIMEOUT_MS }
    else { p with idle_timer := none }
  | none => { p with idle_timer := none }

/-- `enter_idle_state`: `if self.idle_gif and not self.is_idle:` switch the
displayed movie to the idle gif and mark the pet idle. -/
def enter_idle_state (p : PetState) : PetState :=
  match p.idle_gif with
  | some g =>
    if g ≠ "" ∧ p.is_idle = false then
      { p with is_idle := true, current_gif := g }
    else p
  | none => p

/-- `exit_idle_state`: restore the active movie if idle, then always reset
the idle countdown. -/
def exit_idle_state (p : PetState) : PetState :=
  reset_idle_timer
    (if p.is_idle = true then
      { p with is_idle := false, current_gif := p.active_gif }
    else p)

/-- `set_gif`: change the active gif, leave idle mode, display it, record it
in the config (`save_config` has no effect on in-memory state) and reset the
idle countdown. -/
def set_gif (path : String) (p : PetState) : PetState :=
  reset_idle_timer
    { p with
      active_gif := path
      is_idle := false
      current_gif := path
      config := config_set p.config "last_gif" path }

/-- `DraggableLabel.__init__`: flags cleared, movie set to `gif_path`, idle
gif taken from the filesystem check, then `reset_idle_timer` (the window
starts unmoved at the origin with full opacity until the caller positions
it). -/
def mk_pet (gif_path : String) (idle_gif_path : Option String) (ex : String → Bool)
    (config : Config) (save_position : Bool) : PetState :=
  reset_idle_timer
    { drag_active := false
      drag_offset := (0, 0)
      locked := false
      save_position := save_position
      config := config
      active_gif := gif_path
      current_gif := gif_path
      idle_gif := init_idle_gif idle_gif_path ex
      is_idle := false
      idle_timer := none
      pos := (0, 0)
      opacity := 1 }

/-- Let `t` milliseconds of quiet time pass on the single-shot idle timer:
if it runs out, it fires `enter_idle_state` (and, being single-shot, stops);
otherwise the remaining time shrinks.  A stopped timer never fires. -/
def elapse (t : Nat) (p : PetState) : PetState :=
  match p.idle_timer with
  | none => p
  | some r =>
    if r ≤ t then enter_idle_state { p with idle_timer := none }
    else { p with idle_timer := some (r - t) }

/-! ### Mouse events on a pet -/

inductive MouseButton where
  | left
  | right
  | middle
  deriving DecidableEq

/-- A Qt mouse event as the handlers consume it: the triggering button, the
set of buttons currently held, and the global cursor position. -/
structure MouseEvent where
  button : MouseButton
  buttons : List MouseButton
  globalPos : Int × Int
  deriving DecidableEq

/-- `mousePressEvent`: a left press cancels idle and, when the pet is not
locked, starts a drag and records the cursor offset from the window corner;
other buttons fall through to the default handler.  (The selector-targeting
side effect touches only the selector, not the pet.) -/
def mousePressEvent (e : MouseEvent) (p : PetState) : PetState :=
  if e.button = MouseButton.left then
    if (exit_idle_state p).locked = false then
      { exit_idle_state p with
        drag_active := true
        drag_offset := (e.globalPos.1 - (exit_idle_state p).pos.1,
                        e.globalPos.2 - (exit_idle_state p).pos.2) }
    else exit_idle_state p
  else p

/-- `mouseMoveEvent`: move the window with the cursor only while a drag is
active, the pet is unlocked and the left button is held. -/
def mouseMoveEvent (e : MouseEvent) (p : PetState) : PetState :=
  if p.drag_active = true ∧ p.locked = false ∧ MouseButton.left ∈ e.buttons then
    { p with pos := (e.globalPos.1 - p.drag_offset.1, e.globalPos.2 - p.drag_offset.2) }
  else p

/-- `mouseDoubleClickEvent`: a left double-click toggles the lock flag; any
other button falls through to the default handler. -/
def mouseDoubleClickEvent (btn : MouseButton) (p : PetState) : PetState :=
  if btn = MouseButton.left then { p with locked := !p.locked }
  else p

/-! ### Opacity (`main`, `add_pet`, the selector slider, `fade_in`) -/

/-- The clamp `max(0.3, min(opacity, 1.0))` used on every opacity read from
config (`add_pet`, `open_selector_for`, `main`). -/
def clampOpacity (x : ℚ) : ℚ := max (3 / 10) (min x 1)

/-- `on_opacity_changed`: the slider (restricted to 30–100) delivers an
integer percentage, applied as `value / 100.0`. -/
def opacity_from_slider (value : Nat) : ℚ := (value : ℚ) / 100

/-- `fade_in`'s `frac = min(step / max_steps, 1.0)` with `max_steps = 20`. -/
def fade_frac (step : Nat) : ℚ := min ((step : ℚ) / 20) 1

/-- The opacity `fade_in` applies at a given step:
`target_opacity * min(step / 20, 1.0)`. -/
def fade_in_opacity (target : ℚ) (step : Nat) : ℚ := target * fade_frac step

/-! ### `main`'s starting-gif decision -/

/-- `start_gif = config.get("last_gif", DEFAULT_GIF)` followed by the
existence fallback `if not os.path.exists(start_gif): start_gif = DEFAULT_GIF`
(`ex` is `os.path.exists`). -/
def start_gif (cfg : Config) (ex : String → Bool) : String :=
  let s := (config_get cfg "last_gif").getD DEFAULT_GIF
  if ex s = true then s else DEFAULT_GIF

/-! ### Selector list management (`GifSelectorWindow`) -/

/-- `os.path.basename`: the component after the last separator. -/
def basename (path : String) : String :=
  (path.splitOn "/").getLastD path

/-- `rebuild_list`: the displayed `QListWidget` items, one base name per
stored path. -/
def rebuild_list (gif_paths : List String) : List String :=
  gif_paths.map basename

/-- `add_gifs`: append, in dialog order, each selected file that is not
already present (the membership test sees earlier appends, so a file picked
twice is still added once); an empty selection returns early. -/
def add_gifs (gif_paths : List String) (files : List String) : List String :=
  files.foldl (fun acc f => if f ∈ acc then acc else acc ++ [f]) gif_paths

/-- `delete_selected`: with the current row out of range
(`index < 0 or index >= len`) do nothing; otherwise `pop(index)`, then select
`min(index, len - 1)` if paths remain (an emptied `QListWidget` has current
row `-1`).  Returns the new `(gif_paths, current row)`. -/
def delete_selected (gif_paths : List String) (row : Int) : List String × Int :=
  if row < 0 ∨ (gif_paths.length : Int) ≤ row then (gif_paths, row)
  else
    let paths := gif_paths.eraseIdx row.toNat
    if 0 < paths.length then (paths, min row ((paths.length : Int) - 1))
    else (paths, -1)

/-! ### Sample states used by the witnesses -/

/-- A pet constructed as `main` constructs the first pet, on a filesystem
where every file exists. -/
def sample_pet : PetState :=
  mk_pet "anime_character5.gif" (some IDLE_GIF) (fun _ => true) [] true

/-- The same pet after the user locks it. -/
def locked_pet : PetState := { sample_pet with locked := true }

/-! ### Helper lemmas: which fields each pet operation leaves alone -/

lemma reset_idle_timer_locked (p : PetState) :
    (reset_idle_timer p).locked = p.locked := by
  unfold reset_idle_timer
  split
  · split <;> rfl
  · rfl

lemma reset_idle_timer_drag_active (p : PetState) :
    (reset_idle_timer p).drag_active = p.drag_active := by
  unfold reset_idle_timer
  split
  · split <;> rfl
  · rfl

lemma reset_idle_timer_pos (p : PetState) :
    (reset_idle_timer p).pos = p.pos := by
  unfold reset_idle_timer
  split
  · split <;> rfl
  · rfl

lemma reset_idle_timer_is_idle (p : PetState) :
    (reset_idle_timer p).is_idle = p.is_idle := by
  unfold reset_idle_timer
  split
  · split <;> rfl
  · rfl

lemma reset_idle_timer_current_gif (p : PetState) :
    (reset_idle_timer p).current_gif = p.current_gif := by
  unfold reset_idle_timer
  split
  · split <;> rfl
  · rfl

lemma reset_idle_timer_idle_gif (p : PetState) :
    (reset_idle_timer p).idle_gif = p.idle_gif := by
  unfold reset_idle_timer
  split
  · split <;> rfl
  · rfl

lemma exit_idle_state_locked (p : PetState) :
    (exit_idle_state p).locked = p.locked := by
  unfold exit_idle_state
  rw [reset_idle_timer_locked]
  split <;> rfl

lemma exit_idle_state_drag_active (p : PetState) :
    (exit_idle_state p).drag_active = p.drag_active := by
  unfold exit_idle_state
  rw [reset_idle_timer_drag_active]
  split <;> rfl

lemma exit_idle_state_pos (p : PetState) :
    (exit_idle_state p).pos = p.pos := by
  unfold exit_idle_state
  rw [reset_idle_timer_pos]
  split <;> rfl

/-! ### Claim theorems -/

lemma run_op_length_bounds (pets : List Pet) (op : PetOp)
    (h1 : 1 ≤ pets.length) (h3 : pets.length ≤ 3) :
    1 ≤ (run_op pets op).length ∧ (run_op pets op).length ≤ 3 := by
  cases op with
  | add q =>
    simp only [run_op, add_pet]
    split
    · exact ⟨h1, h3⟩
    · rename_i hlt
      rw [List.length_append]
      simp only [List.length_cons, List.length_nil]
      omega
  | remove q =>
    simp only [run_op, remove_pet]
    split
    · exact ⟨h1, h3⟩
    · split
      · exact ⟨h1, h3⟩
      · rename_i hmem hlen
        rw [List.length_erase_of_mem (not_not.mp hmem)]
        omega

lemma run_ops_length_bounds (ops : List PetOp) : ∀ pets : List Pet,
    1 ≤ pets.length → pets.length ≤ 3 →
    1 ≤ (run_ops pets ops).length ∧ (run_ops pets ops).length ≤ 3 := by
  induction ops with
  | nil => intro pets h1 h3; exact ⟨h1, h3⟩
  | cons op ops ih =>
    intro pets h1 h3
    have h := run_op_length_bounds pets op h1 h3
    simp only [run_ops, List.foldl] at *
    exact ih (run_op pets op) h.1 h.2

/-- Claim C1: starting from the single pet created in `main`, `add_pet`
leaves `PETS` unchanged at three or more pets and otherwise appends exactly
one pet, `remove_pet` leaves `PETS` unchanged when only one pet remains or
when the pet is absent and otherwise removes exactly that pet, and hence
every sequence of `add_pet` / `remove_pet` calls keeps
`1 ≤ len(PETS) ≤ 3`. -/
theorem pet_count_invariant :
    (∀ (pets : List Pet) (q : Pet), 3 ≤ pets.length → add_pet pets q = pets)
    ∧ (∀ (pets : List Pet) (q : Pet), pets.length < 3 → add_pet pets q = pets ++ [q])
    ∧ (∀ (pets : List Pet) (q : Pet), q ∉ pets → remove_pet pets q = pets)
    ∧ (∀ (pets : List Pet) (q : Pet), pets.length ≤ 1 → remove_pet pets q = pets)
    ∧ (∀ (pets : List Pet) (q : Pet), q ∈ pets → 2 ≤ pets.length →
        remove_pet pets q = pets.erase q)
    ∧ (∀ (ops : List PetOp) (p0 : Pet),
        1 ≤ (run_ops [p0] ops).length ∧ (run_ops [p0] ops).length ≤ 3) := by
  refine ⟨?_, ?_, ?_, ?_, ?_, ?_⟩
  · intro pets q h
    simp [add_pet, h]
  · intro pets q h
    rw [add_pet, if_neg (by omega)]
  · intro pets q h
    simp [remove_pet, h]
  · intro pets q h
    by_cases hm : q ∈ pets <;> simp [remove_pet, hm, h]
  · intro pets q hm hlen
    rw [remove_pet, if_neg (by simp [hm]), if_neg (by omega)]
  · intro ops p0
    exact run_ops_length_bounds ops [p0] (by simp) (by simp)

/-- Witness for C1 at concrete inputs. -/
theorem pet_count_invariant_witness :
    (([10] : List Pet).length < 3 ∧ add_pet [10] 11 = [10] ++ [11])
    ∧ (1 ≤ (run_ops [0] [PetOp.add 1, PetOp.add 2, PetOp.add 3, PetOp.remove 1]).length
       ∧ (run_ops [0] [PetOp.add 1, PetOp.add 2, PetOp.add 3, PetOp.remove 1]).length ≤ 3) :=
  ⟨⟨by decide, pet_count_invariant.2.1 [10] 11 (by decide)⟩,
    pet_count_invariant.2.2.2.2.2 [PetOp.add 1, PetOp.add 2, PetOp.add 3, PetOp.remove 1] 0⟩

/-- Counterexample to C2 as stated: the startup fade-in applies an opacity
below the 0.3 floor.  At step 0 `fade_in` applies
`target_opacity * min(0 / 20, 1.0) = 0`, even for the clamped target
obtained from a configured opacity of `1.0`. -/
theorem opacity_floor_counterexample :
    fade_in_opacity (clampOpacity 1) 0 < 3 / 10 := by
  norm_num [fade_in_opacity, fade_frac, clampOpacity]

/-- C2 as amended: every opacity obtained from the slider (restricted to
30–100) or from the config clamp `max(0.3, min(·, 1.0))` lies in
`[0.3, 1.0]`; however the startup fade-in transiently applies opacities
below the floor, starting at `0`, and only its final step applies the
clamped target itself. -/
theorem opacity_floor_amended :
    (∀ v : Nat, 30 ≤ v → v ≤ 100 →
      3 / 10 ≤ opacity_from_slider v ∧ opacity_from_slider v ≤ 1)
    ∧ (∀ x : ℚ, 3 / 10 ≤ clampOpacity x ∧ clampOpacity x ≤ 1)
    ∧ (∀ x : ℚ, fade_in_opacity x 0 = 0)
    ∧ (∀ x : ℚ, fade_in_opacity x 20 = x) := by
  refine ⟨?_, ?_, ?_, ?_⟩
  · intro v h30 h100
    have hv30 : (30 : ℚ) ≤ (v : ℚ) := by exact_mod_cast h30
    have hv100 : (v : ℚ) ≤ 100 := by exact_mod_cast h100
    unfold opacity_from_slider
    constructor
    · rw [le_div_iff₀ (by norm_num : (0:ℚ) < 100)]
      linarith
    · rw [div_le_one (by norm_num : (0:ℚ) < 100)]
      exact hv100
  · intro x
    exact ⟨le_max_left _ _, max_le (by norm_num) (min_le_right x 1)⟩
  · intro x
    norm_num [fade_in_opacity, fade_frac]
  · intro x
    norm_num [fade_in_opacity, fade_frac]

/-- Witness for the amended C2 at the slider minimum. -/
theorem opacity_floor_amended_witness :
    (30 ≤ 30 ∧ 30 ≤ 100) ∧ 3 / 10 ≤ opacity_from_slider 30 :=
  ⟨⟨by decide, by decide⟩, (opacity_floor_amended.1 30 (by decide) (by decide)).1⟩

/-- Claim C6: `fade_in` at step `k` applies
`target_opacity * min(k / 20, 1.0)`, so the applied opacities never
decrease, each of the first twenty increments equals `target / 20`, the
recursion schedules a next timer step exactly for `k < 20` (so exactly 20
timer steps run), and the final applied opacity is exactly the target. -/
theorem fade_in_spec (target : ℚ) (h : 0 ≤ target) :
    (∀ k : Nat, fade_in_opacity target k ≤ fade_in_opacity target (k + 1))
    ∧ (∀ k : Nat, k < 20 →
        fade_in_opacity target (k + 1) - fade_in_opacity target k = target / 20)
    ∧ (∀ k : Nat, fade_frac k < 1 ↔ k < 20)
    ∧ fade_in_opacity target 20 = target := by
  refine ⟨?_, ?_, ?_, ?_⟩
  · intro k
    unfold fade_in_opacity fade_frac
    push_cast
    gcongr
    linarith
  · intro k hk
    have hkq : (k : ℚ) < 20 := by exact_mod_cast hk
    have h1 : (k : ℚ) / 20 ≤ 1 := by
      rw [div_le_one (by norm_num : (0:ℚ) < 20)]
      linarith
    have h2 : ((k : ℚ) + 1) / 20 ≤ 1 := by
      rw [div_le_one (by norm_num : (0:ℚ) < 20)]
      have hsucc : (k + 1 : ℕ) ≤ 20 := hk
      exact_mod_cast hsucc
    unfold fade_in_opacity fade_frac
    push_cast
    rw [min_eq_left h2, min_eq_left h1]
    ring
  · intro k
    unfold fade_frac
    constructor
    · intro hlt
      by_contra hge
      push_neg at hge
      have h20 : (1 : ℚ) ≤ (k : ℚ) / 20 := by
        rw [le_div_iff₀ (by norm_num : (0:ℚ) < 20)]
        have : (20 : ℚ) ≤ (k : ℚ) := by exact_mod_cast hge
        linarith
      rw [min_eq_right h20] at hlt
      exact lt_irrefl _ hlt
    · intro hk
      have hlt : (k : ℚ) / 20 < 1 := by
        rw [div_lt_one (by norm_num : (0:ℚ) < 20)]
        exact_mod_cast hk
      calc min ((k : ℚ) / 20) 1 ≤ (k : ℚ) / 20 := min_le_left _ _
        _ < 1 := hlt
  · unfold fade_in_opacity fade_frac
    norm_num

/-- Witness for C6 at target `1/2`. -/
theorem fade_in_spec_witness :
    (0 : ℚ) ≤ 1 / 2 ∧ fade_in_opacity (1 / 2) 20 = 1 / 2 :=
  ⟨by norm_num, (fade_in_spec (1 / 2) (by norm_num)).2.2.2⟩

/-- Claim C3: `load_config` returns the parsed JSON object when the config
file exists, is readable and parses; it returns the empty dict — and never
raises — when the file is missing, reading raises, or parsing raises.
`save_config` returns normally on every input and leaves the in-memory
config unchanged even when the write fails. -/
theorem config_persistence (fs : FileSystem) (parse : String → Option Config)
    (cfg : Config) (ok : Bool) :
    (∀ (s : String) (c : Config), fs.configFile = some s → fs.readFails = false →
      parse s = some c → load_config fs parse = c)
    ∧ (fs.configFile = none → load_config fs parse = [])
    ∧ (fs.readFails = true → load_config fs parse = [])
    ∧ (∀ s : String, fs.configFile = some s → parse s = none →
        load_config fs parse = [])
    ∧ save_config cfg ok = (Except.ok (), cfg) := by
  refine ⟨?_, ?_, ?_, ?_, ?_⟩
  · intro s c hs hr hp
    simp [load_config, hs, hr, hp]
  · intro h
    simp [load_config, h]
  · intro h
    unfold load_config
    cases fs.configFile with
    | none => rfl
    | some s => simp [h]
  · intro s hs hp
    simp only [load_config, hs]
    split
    · rfl
    · rw [hp]
  · cases ok <;> rfl

/-- Witness for C3: a present, parseable file is returned as parsed; a
failing write still returns normally. -/
theorem config_persistence_witness :
    ((FileSystem.mk (some "txt") false).configFile = some "txt"
      ∧ (FileSystem.mk (some "txt") false).readFails = false
      ∧ (fun _ : String => some [("last_gif", "a.gif")]) "txt" = some [("last_gif", "a.gif")])
    ∧ load_config ⟨some "txt", false⟩ (fun _ => some [("last_gif", "a.gif")])
        = [("last_gif", "a.gif")]
    ∧ save_config [("opacity", "0.5")] false = (Except.ok (), [("opacity", "0.5")]) :=
  ⟨⟨rfl, rfl, rfl⟩,
    (config_persistence ⟨some "txt", false⟩ (fun _ => some [("last_gif", "a.gif")])
      [] true).1 "txt" [("last_gif", "a.gif")] rfl rfl rfl,
    (config_persistence ⟨some "txt", false⟩ (fun _ => some [("last_gif", "a.gif")])
      [("opacity", "0.5")] false).2.2.2.2⟩

/-- Claim C4: `main`'s starting gif is `config["last_gif"]` when that file
exists and `DEFAULT_GIF` otherwise (also when the key is absent); a missing
idle gif file disables the idle feature at construction, and a pet without
an idle gif is never changed by `enter_idle_state`. -/
theorem missing_gif_fallback (cfg : Config) (ex : String → Bool) (s : String)
    (q : PetState) :
    (config_get cfg "last_gif" = some s → ex s = true → start_gif cfg ex = s)
    ∧ (config_get cfg "last_gif" = some s → ex s = false → start_gif cfg ex = DEFAULT_GIF)
    ∧ (config_get cfg "last_gif" = none → start_gif cfg ex = DEFAULT_GIF)
    ∧ (ex IDLE_GIF = false → init_idle_gif (some IDLE_GIF) ex = none)
    ∧ (q.idle_gif = none →
        enter_idle_state q = q ∧ (reset_idle_timer q).idle_timer = none) := by
  refine ⟨?_, ?_, ?_, ?_, ?_⟩
  · intro h he
    simp [start_gif, h, he]
  · intro h he
    simp [start_gif, h, he]
  · intro h
    simp only [start_gif, h, Option.getD_none]
    split <;> rfl
  · intro h
    simp [init_idle_gif, h]
  · intro h
    exact ⟨by simp [enter_idle_state, h], by simp [reset_idle_timer, h]⟩

/-- Witness for C4: a configured `last_gif` whose file is missing falls back
to the default. -/
theorem missing_gif_fallback_witness :
    (config_get [("last_gif", "pet.gif")] "last_gif" = some "pet.gif"
      ∧ (fun _ : String => false) "pet.gif" = false)
    ∧ start_gif [("last_gif", "pet.gif")] (fun _ => false) = DEFAULT_GIF :=
  ⟨⟨by decide, rfl⟩,
    (missing_gif_fallback [("last_gif", "pet.gif")] (fun _ => false) "pet.gif"
      sample_pet).2.1 (by decide) rfl⟩

/-- Claim C5: for a pet whose idle gif file existed at construction
(`idle_gif` is a non-empty path) and which is not idle, letting the full
`IDLE_TIMEOUT_MS` of quiet time pass after the idle timer was last reset
fires `enter_idle_state`, which marks the pet idle and displays the idle
gif; any shorter quiet time leaves the pet non-idle with its display
unchanged; and a pet whose idle gif file did not exist is never changed by
`enter_idle_state` and never becomes idle, its timer staying stopped. -/
theorem idle_after_timeout (p q : PetState) (g : String) (t : Nat)
    (hg : p.idle_gif = some g) (hne : g ≠ "") (hid : p.is_idle = false) :
    ((elapse IDLE_TIMEOUT_MS (reset_idle_timer p)).is_idle = true
      ∧ (elapse IDLE_TIMEOUT_MS (reset_idle_timer p)).current_gif = g)
    ∧ (t < IDLE_TIMEOUT_MS →
        (elapse t (reset_idle_timer p)).is_idle = false
        ∧ (elapse t (reset_idle_timer p)).current_gif = p.current_gif)
    ∧ (q.idle_gif = none →
        enter_idle_state q = q
        ∧ elapse t (reset_idle_timer q) = reset_idle_timer q
        ∧ (reset_idle_timer q).idle_timer = none) := by
  have hreset : reset_idle_timer p = { p with idle_timer := some IDLE_TIMEOUT_MS } := by
    unfold reset_idle_timer
    rw [hg]
    simp [hne]
  refine ⟨?_, ?_, ?_⟩
  · rw [hreset]
    simp [elapse, enter_idle_state, hg, hne, hid]
  · intro ht
    rw [hreset]
    unfold elapse
    simp only
    rw [if_neg (by omega)]
    exact ⟨hid, rfl⟩
  · intro hq
    have hqr : reset_idle_timer q = { q with idle_timer := none } := by
      unfold reset_idle_timer
      rw [hq]
    refine ⟨by simp [enter_idle_state, hq], ?_, by rw [hqr]⟩
    rw [hqr]
    simp [elapse]

/-- Witness for C5: the sample pet (idle gif present) is idle once the full
timeout elapses. -/
theorem idle_after_timeout_witness :
    (sample_pet.idle_gif = some "idle.gif" ∧ ("idle.gif" : String) ≠ ""
      ∧ sample_pet.is_idle = false)
    ∧ (elapse IDLE_TIMEOUT_MS (reset_idle_timer sample_pet)).is_idle = true :=
  ⟨⟨by decide, by decide, by decide⟩,
    (idle_after_timeout sample_pet sample_pet "idle.gif" 0 (by decide) (by decide)
      (by decide)).1.1⟩

/-- Claim C7: a left double-click on a pet flips `_locked` and changes
nothing else, so two consecutive left double-clicks restore the original
lock flag; a double-click with any other button leaves the pet unchanged. -/
theorem double_click_toggles_lock (p : PetState) (b : MouseButton) :
    mouseDoubleClickEvent MouseButton.left p = { p with locked := !p.locked }
    ∧ (mouseDoubleClickEvent MouseButton.left
        (mouseDoubleClickEvent MouseButton.left p)).locked = p.locked
    ∧ (b ≠ MouseButton.left → mouseDoubleClickEvent b p = p) := by
  refine ⟨?_, ?_, ?_⟩
  · simp [mouseDoubleClickEvent]
  · simp [mouseDoubleClickEvent]
  · intro hb
    simp [mouseDoubleClickEvent, hb]

/-- Witness for C7: a right-button double-click is a no-op on the sample
pet. -/
theorem double_click_toggles_lock_witness :
    MouseButton.right ≠ MouseButton.left
    ∧ mouseDoubleClickEvent MouseButton.right sample_pet = sample_pet :=
  ⟨by decide, (double_click_toggles_lock sample_pet MouseButton.right).2.2 (by decide)⟩

/-- Claim C8: on a locked pet, a mouse press never starts a drag and never
moves the window, and a mouse move never changes the window position; the
position changes through the drag handlers only when the pet is unlocked, a
drag is active and the left button is held. -/
theorem locked_pet_never_moves (p : PetState) (e : MouseEvent) :
    (p.locked = true →
      (mousePressEvent e p).drag_active = p.drag_active
      ∧ (mousePressEvent e p).pos = p.pos)
    ∧ (p.locked = true → mouseMoveEvent e p = p)
    ∧ ((mouseMoveEvent e p).pos ≠ p.pos →
        p.drag_active = true ∧ p.locked = false ∧ MouseButton.left ∈ e.buttons) := by
  refine ⟨?_, ?_, ?_⟩
  · intro hl
    unfold mousePressEvent
    split
    · have hql : (exit_idle_state p).locked = true := by
        rw [exit_idle_state_locked]
        exact hl
      rw [if_neg (by simp [hql])]
      exact ⟨exit_idle_state_drag_active p, exit_idle_state_pos p⟩
    · exact ⟨rfl, rfl⟩
  · intro hl
    unfold mouseMoveEvent
    rw [if_neg ?hnc]
    case hnc =>
      rintro ⟨-, hlf, -⟩
      rw [hl] at hlf
      cases hlf
  · intro hne
    by_cases hcond : p.drag_active = true ∧ p.locked = false ∧ MouseButton.left ∈ e.buttons
    · exact hcond
    · exfalso
      apply hne
      unfold mouseMoveEvent
      rw [if_neg hcond]

/-- Witness for C8: the locked sample pet is unmoved by a left-button drag
move. -/
theorem locked_pet_never_moves_witness :
    locked_pet.locked = true
    ∧ mouseMoveEvent ⟨MouseButton.left, [MouseButton.left], (40, 40)⟩ locked_pet
        = locked_pet :=
  ⟨by decide,
    (locked_pet_never_moves locked_pet
      ⟨MouseButton.left, [MouseButton.left], (40, 40)⟩).2.1 (by decide)⟩

/-- Claim C9: with a valid current row, `delete_selected` removes exactly
the element at that index (the rest keep their order), shrinks the list by
one, and selects `min(index, new_length - 1)`, a valid index whenever paths
remain; with an invalid current row it changes nothing. -/
theorem delete_selected_spec (paths : List String) (row : Int) :
    (0 ≤ row → row < (paths.length : Int) →
      (delete_selected paths row).1 = paths.take row.toNat ++ paths.drop (row.toNat + 1)
      ∧ (delete_selected paths row).1.length + 1 = paths.length
      ∧ (0 < (delete_selected paths row).1.length →
          (delete_selected paths row).2
            = min row (((delete_selected paths row).1.length : Int) - 1)
          ∧ 0 ≤ (delete_selected paths row).2
          ∧ (delete_selected paths row).2 < ((delete_selected paths row).1.length : Int)))
    ∧ ((row < 0 ∨ (paths.length : Int) ≤ row) → delete_selected paths row = (paths, row)) := by
  constructor
  · intro h0 hlt
    have hcond : ¬(row < 0 ∨ (paths.length : Int) ≤ row) := by
      push_neg
      exact ⟨h0, hlt⟩
    have hidx : row.toNat < paths.length := by omega
    have hds : delete_selected paths row
        = (paths.eraseIdx row.toNat,
            if 0 < (paths.eraseIdx row.toNat).length then
              min row (((paths.eraseIdx row.toNat).length : Int) - 1)
            else -1) := by
      unfold delete_selected
      rw [if_neg hcond]
      split <;> rename_i hp <;> simp [hp]
    rw [hds]
    have hlen : (paths.eraseIdx row.toNat).length + 1 = paths.length :=
      List.length_eraseIdx_add_one hidx
    refine ⟨List.eraseIdx_eq_take_drop_succ paths row.toNat, hlen, ?_⟩
    intro hpos
    simp only at hpos ⊢
    rw [if_pos hpos]
    refine ⟨rfl, le_min h0 (by omega), ?_⟩
    exact lt_of_le_of_lt (min_le_right _ _) (by omega)
  · intro h
    unfold delete_selected
    rw [if_pos h]

/-- Witness for C9: deleting row 1 of a three-element list. -/
theorem delete_selected_witness :
    (0 ≤ (1 : Int) ∧ (1 : Int) < ((["a", "b", "c"] : List String).length : Int))
    ∧ (delete_selected ["a", "b", "c"] 1).1
        = (["a", "b", "c"] : List String).take 1 ++ (["a", "b", "c"] : List String).drop 2 :=
  ⟨⟨by decide, by decide⟩,
    ((delete_selected_spec ["a", "b", "c"] 1).1 (by decide) (by decide)).1⟩

lemma add_gifs_cons (paths : List String) (f : String) (fs : List String) :
    add_gifs paths (f :: fs) = add_gifs (if f ∈ paths then paths else paths ++ [f]) fs :=
  rfl

lemma add_gifs_extra : ∀ (files paths : List String),
    ∃ extra, add_gifs paths files = paths ++ extra ∧ extra.Nodup
      ∧ ∀ f ∈ extra, f ∈ files ∧ f ∉ paths := by
  intro files
  induction files with
  | nil =>
    intro paths
    exact ⟨[], by simp [add_gifs], List.nodup_nil, by simp⟩
  | cons f fs ih =>
    intro paths
    by_cases hf : f ∈ paths
    · obtain ⟨extra, he, hnd, hmem⟩ := ih paths
      refine ⟨extra, ?_, hnd, ?_⟩
      · rw [add_gifs_cons, if_pos hf]
        exact he
      · intro x hx
        obtain ⟨h1, h2⟩ := hmem x hx
        exact ⟨List.mem_cons_of_mem _ h1, h2⟩
    · obtain ⟨extra, he, hnd, hmem⟩ := ih (paths ++ [f])
      have hfex : f ∉ extra := by
        intro hcon
        exact (hmem f hcon).2 (List.mem_append_right _ (List.mem_singleton_self f))
      refine ⟨f :: extra, ?_, List.nodup_cons.mpr ⟨hfex, hnd⟩, ?_⟩
      · rw [add_gifs_cons, if_neg hf, he, List.append_assoc]
        rfl
      · intro x hx
        rcases List.mem_cons.mp hx with rfl | hx'
        · exact ⟨List.mem_cons_self _ _, hf⟩
        · obtain ⟨h1, h2⟩ := hmem x hx'
          exact ⟨List.mem_cons_of_mem _ h1, fun hp => h2 (List.mem_append_left _ hp)⟩

/-- Claim C10: `add_gifs` appends only files not already present — the
appended suffix has no duplicates and is disjoint from the existing paths,
which keep their order — and an empty file selection leaves both the stored
paths and the displayed list unchanged. -/
theorem add_gifs_no_duplicates (paths files : List String) :
    add_gifs paths [] = paths
    ∧ rebuild_list (add_gifs paths []) = rebuild_list paths
    ∧ ∃ extra, add_gifs paths files = paths ++ extra ∧ extra.Nodup
        ∧ ∀ f ∈ extra, f ∈ files ∧ f ∉ paths :=
  ⟨rfl, rfl, add_gifs_extra files paths⟩

/-- Witness for C10: a selection repeating an existing path and a new path
twice adds the new path exactly once. -/
theorem add_gifs_no_duplicates_witness :
    add_gifs ["a"] [] = ["a"]
    ∧ add_gifs ["a"] ["a", "b", "b"] = ["a", "b"] :=
  ⟨(add_gifs_no_duplicates ["a"] []).1, by decide⟩

end AnimaEngine
